import Mathlib

/-!
Verification of the blob-triggered dispatch-and-normalize pipeline
(`BlobTriggerFunction/__init__.py`).

The embedding models:
* the JSON values the handler builds (Python dicts/lists/strings/numbers)
  as a mutual inductive `JVal`/`JArr`/`JObj`, with `dumps` modelling
  `json.dumps` (default separators `", "` and `": "`, `ensure_ascii`
  escaping) and `loads` a parser for that canonical text;
* numbers as exact decimals (`JNum`): a Python `int` is a `JNum` with no
  fraction digits, a Python `float` is the decimal literal `repr`
  prints for it (fraction digits present), so the int/float distinction
  is preserved structurally;
* the two Azure SDK clients as a capability function passed in
  explicitly, returning `Except` (a remote failure or the response),
  with configuration (`os.getenv` results) as `Option String`s;
* `main`, `process_text` and `process_image` translated line by line,
  with the log calls accumulated into a list of entries.
-/

/-! ### Exact decimal numbers (the literals `json.dumps` prints) -/

/-- A JSON number token: optional minus sign, integer part, and the list of
fraction digits (empty for a Python `int`, nonempty for a `float`, e.g.
`1.0` is `⟨false, 1, [0]⟩` while `1` is `⟨false, 1, []⟩`). -/
structure JNum where
  neg : Bool
  intPart : Nat
  fracDigits : List (Fin 10)
deriving DecidableEq, Repr

/-- The integer `i` as a `JNum` (no fraction digits: a Python `int`). -/
def JNum.ofInt (i : Int) : JNum :=
  if i < 0 then ⟨true, i.natAbs, []⟩ else ⟨false, i.natAbs, []⟩

/-- Value of a fraction-digit list: `[9, 5]` is `0.95`. -/
def fracVal : List (Fin 10) → ℚ
  | [] => 0
  | d :: tl => ((d : ℚ) + fracVal tl) / 10

/-- The rational value a `JNum` denotes. -/
def JNum.val (x : JNum) : ℚ :=
  (if x.neg then -1 else 1) * ((x.intPart : ℚ) + fracVal x.fracDigits)

/-! ### JSON values -/

mutual
/-- A JSON value as the handler builds them: string, number, array, object.
(The source never produces `null` or booleans, so they are not modelled.) -/
inductive JVal where
  | jstr (s : String)
  | jnum (n : JNum)
  | jarr (elems : JArr)
  | jobj (fields : JObj)
deriving DecidableEq, Repr

/-- The elements of a JSON array. -/
inductive JArr where
  | anil
  | acons (hd : JVal) (tl : JArr)
deriving DecidableEq, Repr

/-- The key/value fields of a JSON object, in insertion order (Python dicts
preserve insertion order, and `json.dumps` serializes in that order). -/
inductive JObj where
  | onil
  | ocons (key : String) (val : JVal) (tl : JObj)
deriving DecidableEq, Repr
end

/-- Build a JSON array from a Lean list of values. -/
def arrOfList : List JVal → JArr
  | [] => .anil
  | v :: tl => .acons v (arrOfList tl)

/-- The elements of a JSON array as a Lean list. -/
def JArr.toList : JArr → List JVal
  | .anil => []
  | .acons v tl => v :: tl.toList

/-- The keys of a JSON object, in order. -/
def JObj.keys : JObj → List String
  | .onil => []
  | .ocons k _ tl => k :: tl.keys

/-- Whether a JSON object has a field named `k`. -/
def JObj.hasKey (o : JObj) (k : String) : Bool := o.keys.contains k

/-- Top-level keys of a JSON value (empty for non-objects). -/
def topKeys : JVal → List String
  | .jobj o => o.keys
  | _ => []

theorem arrOfList_toList (l : List JVal) : (arrOfList l).toList = l := by
  induction l with
  | nil => rfl
  | cons v tl ih => simp [arrOfList, JArr.toList, ih]

/-! ### The error taxonomy (spec §7) -/

/-- The error kinds an invocation can fail with. `decodeError` models the
`UnicodeDecodeError` from `bytes.decode("utf-8")`; `configError` the
`TypeError`/`ValueError` the SDK client constructors raise on a missing
endpoint or key; `backendError` any failure of the remote call or of
interpreting its result (including the `AttributeError` raised when a
backend-flagged `DocumentError` is accessed as if it were a success). -/
inductive Err where
  | decodeError
  | configError
  | backendError
deriving DecidableEq, Repr

/-! ### Configuration and client construction -/

/-- Environment configuration: `os.getenv` returns the value or `None`. -/
structure Config where
  endpoint : Option String
  key : Option String

/-- Client construction, shared by both strategies. Models
`TextAnalyticsClient(endpoint, AzureKeyCredential(key))` (and the
`DocumentAnalysisClient` analogue): `AzureKeyCredential(None)` raises
`TypeError("key must be a string.")` and the client constructor raises
`ValueError` on a `None` endpoint, both before any network traffic, so a
missing value fails at construction, mapped to `configError`. -/
def mkClient (cfg : Config) : Except Err Unit :=
  match cfg.key with
  | none => .error .configError
  | some _ =>
    match cfg.endpoint with
    | none => .error .configError
    | some _ => .ok ()

/-! ### Backend response models (the Azure SDK shapes the source reads) -/

/-- One item of the `analyze_sentiment` response batch: either an
`AnalyzeSentimentResult` (with `id`, `sentiment` and the three
`confidence_scores`) or a `DocumentError` (`is_error` true; it has an `id`
and an `error`, but accessing `sentiment`/`confidence_scores` on it raises
`AttributeError`). -/
inductive SentimentDocItem where
  | success (id : String) (sentiment : String) (pos neu neg : JNum)
  | failed (id : String) (errMsg : String)
deriving DecidableEq, Repr

/-- Whether the backend flagged this item as failed. -/
def SentimentDocItem.isFailed : SentimentDocItem → Bool
  | .success .. => false
  | .failed .. => true

/-- One OCR line: the text `content` plus geometric metadata (`polygon`,
`spans`) that the handler does not copy into its output. -/
structure DocumentLine where
  content : String
  polygon : List (JNum × JNum)
  spans : List (Nat × Nat)
deriving DecidableEq, Repr

/-- One OCR page: `page_number` and `lines`, plus page metadata (`angle`,
`width`, `height`) the handler ignores. -/
structure DocumentPage where
  page_number : Int
  angle : Option JNum
  width : Option JNum
  height : Option JNum
  lines : List DocumentLine
deriving DecidableEq, Repr

/-- The `poller.result()` of `begin_analyze_document("prebuilt-read", _)`:
the pages, plus the flat `content` metadata the handler ignores. -/
structure AnalyzeResult where
  content : String
  pages : List DocumentPage
deriving DecidableEq, Repr

/-! ### The two strategies (`process_text`, `process_image`) -/

/-- The per-document dict the text loop appends:
`{"id": …, "sentiment": …, "confidence_scores": {"positive": …, "neutral": …, "negative": …}}`. -/
def docJson (id sentiment : String) (pos neu neg : JNum) : JVal :=
  .jobj (.ocons "id" (.jstr id)
    (.ocons "sentiment" (.jstr sentiment)
      (.ocons "confidence_scores"
        (.jobj (.ocons "positive" (.jnum pos)
          (.ocons "neutral" (.jnum neu)
            (.ocons "negative" (.jnum neg) .onil))))
        .onil)))

/-- The `for doc in response` loop of `process_text`: each success item is
appended in order; reaching a `DocumentError` raises (the `doc.sentiment`
attribute access), surfaced as `backendError`, so nothing is returned. -/
def collectDocs : List SentimentDocItem → Except Err (List JVal)
  | [] => .ok []
  | .success id s p n g :: tl =>
    match collectDocs tl with
    | .error e => .error e
    | .ok rest => .ok (docJson id s p n g :: rest)
  | .failed _ _ :: _ => .error .backendError

/-- `process_text(blob_content)`: build the client from the environment,
call `analyze_sentiment(documents=[blob_content])`, and normalize the
response into the `{"documents": […]}` envelope. The sentiment capability
is passed in as `svc`; a remote failure is `backendError`. -/
def process_text (cfg : Config)
    (svc : List String → Except String (List SentimentDocItem))
    (blob_content : String) : Except Err JVal :=
  match mkClient cfg with
  | .error e => .error e
  | .ok _ =>
    match svc [blob_content] with
    | .error _ => .error .backendError
    | .ok response =>
      match collectDocs response with
      | .error e => .error e
      | .ok docs => .ok (.jobj (.ocons "documents" (.jarr (arrOfList docs)) .onil))

/-- The per-page dict the image loop appends:
`{"page_number": …, "lines": [line.content, …]}`. -/
def pageJson (p : DocumentPage) : JVal :=
  .jobj (.ocons "page_number" (.jnum (JNum.ofInt p.page_number))
    (.ocons "lines" (.jarr (arrOfList (p.lines.map (fun l => JVal.jstr l.content))))
      .onil))

/-- `process_image(blob_content)`: build the client, submit the bytes to
`begin_analyze_document("prebuilt-read", _)` and await `poller.result()`
(the capability `svc`, whose failure — submission, the long-running
operation, or retrieval — is `backendError`), then normalize the pages
into the `{"pages": […]}` envelope. -/
def process_image (cfg : Config)
    (svc : List Nat → Except String AnalyzeResult)
    (blob_content : List Nat) : Except Err JVal :=
  match mkClient cfg with
  | .error e => .error e
  | .ok _ =>
    match svc blob_content with
    | .error _ => .error .backendError
    | .ok result =>
      .ok (.jobj (.ocons "pages" (.jarr (arrOfList (result.pages.map pageJson))) .onil))

/-! ### Serialization (`json.dumps` with its default options) -/

/-- The ASCII character of a decimal digit. -/
def digitChar (d : Fin 10) : Char := Char.ofNat (48 + d.val)

/-- The lowercase hex character of a value below 16 (as `json.dumps` emits
in `\uXXXX` escapes). -/
def hexChar (v : Nat) : Char :=
  if v < 10 then Char.ofNat (48 + v) else Char.ofNat (87 + v)

/-- Fueled worker for `natChars`: one digit per division step. -/
def natCharsGo : Nat → Nat → List Char
  | 0, _ => []
  | fuel + 1, n =>
    if h : n < 10 then [digitChar ⟨n, h⟩]
    else natCharsGo fuel (n / 10) ++ [digitChar ⟨n % 10, Nat.mod_lt _ (by omega)⟩]

/-- Decimal digit characters of `n`, most significant first, no leading
zeros (except `0` itself): the text `str`/`repr` print for the part.
(Recursion is on a fuel bound `n.succ`, always sufficient since the
quotient shrinks at every step.) -/
def natChars (n : Nat) : List Char := natCharsGo n.succ n

/-- The number token: sign, integer digits, and `.` plus the fraction
digits when there are any (so an `int` and a `float` of the same value
print differently, exactly as in Python). -/
def dumpNum (x : JNum) : List Char :=
  (if x.neg then ['-'] else []) ++ natChars x.intPart ++
    (if x.fracDigits.isEmpty then [] else '.' :: x.fracDigits.map digitChar)

/-- A `\uXXXX` escape for a value below `0x10000`. -/
def hexEscape (v : Nat) : List Char :=
  ['\\', 'u', hexChar (v / 4096 % 16), hexChar (v / 256 % 16),
   hexChar (v / 16 % 16), hexChar (v % 16)]

/-- One character as `json.dumps` (default `ensure_ascii=True`) emits it:
`"` and `\` escaped, the short escapes for backspace, tab, newline,
form feed and carriage return, `\uXXXX` for the remaining control and all
non-ASCII characters (a surrogate pair above `0xFFFF`), and printable
ASCII verbatim. -/
def escapeChar (c : Char) : List Char :=
  if c = '"' then ['\\', '"']
  else if c = '\\' then ['\\', '\\']
  else if c.toNat = 8 then ['\\', 'b']
  else if c.toNat = 9 then ['\\', 't']
  else if c.toNat = 10 then ['\\', 'n']
  else if c.toNat = 12 then ['\\', 'f']
  else if c.toNat = 13 then ['\\', 'r']
  else if c.toNat < 32 ∨ 126 < c.toNat then
    if c.toNat < 65536 then hexEscape c.toNat
    else
      hexEscape (55296 + (c.toNat - 65536) / 1024) ++
        hexEscape (56320 + (c.toNat - 65536) % 1024)
  else [c]

/-- A string token: quote, escaped characters, quote. -/
def dumpStr (s : String) : List Char :=
  '"' :: (s.data.flatMap escapeChar ++ ['"'])

mutual
/-- `json.dumps` of a value, as a character list. Default separators: items
joined by `", "`, keys and values by `": "`. -/
def dumpV : JVal → List Char
  | .jstr s => dumpStr s
  | .jnum x => dumpNum x
  | .jarr .anil => ['[', ']']
  | .jarr (.acons v tl) => '[' :: (dumpV v ++ dumpItems tl ++ [']'])
  | .jobj .onil => ['{', '}']
  | .jobj (.ocons k v tl) =>
    '{' :: (dumpStr k ++ ':' :: ' ' :: (dumpV v ++ dumpFields tl ++ ['}']))

/-- The `", item"` continuations of an array body. -/
def dumpItems : JArr → List Char
  | .anil => []
  | .acons v tl => ',' :: ' ' :: (dumpV v ++ dumpItems tl)

/-- The `", \"key\": value"` continuations of an object body. -/
def dumpFields : JObj → List Char
  | .onil => []
  | .ocons k v tl => ',' :: ' ' :: (dumpStr k ++ ':' :: ' ' :: (dumpV v ++ dumpFields tl))
end

/-- The serialized envelope text written to the output blob. -/
def dumps (j : JVal) : List Char := dumpV j

/-! ### UTF-8 decoding (`bytes.decode("utf-8")`, strict) -/

/-- Whether a byte is a UTF-8 continuation byte (`0x80`–`0xBF`). -/
def isCont (b : Nat) : Bool := 128 ≤ b && b ≤ 191

/-- The allowed second byte after each three-byte leader: `0xE0` forbids
overlong encodings (second byte from `0xA0`), `0xED` forbids surrogates
(second byte up to `0x9F`). -/
def cont3Ok (b1 b2 : Nat) : Bool :=
  if b1 = 224 then 160 ≤ b2 && b2 ≤ 191
  else if b1 = 237 then 128 ≤ b2 && b2 ≤ 159
  else isCont b2

/-- The allowed second byte after each four-byte leader: `0xF0` forbids
overlong encodings, `0xF4` caps the code point at `0x10FFFF`. -/
def cont4Ok (b1 b2 : Nat) : Bool :=
  if b1 = 240 then 144 ≤ b2 && b2 ≤ 191
  else if b1 = 244 then 128 ≤ b2 && b2 ≤ 143
  else isCont b2

/-- Strict UTF-8 decoding of a byte list, accumulating decoded characters
in reverse; `none` models the `UnicodeDecodeError` Python raises. -/
def utf8Go : List Nat → List Char → Option (List Char)
  | [], acc => some acc.reverse
  | b1 :: t1, acc =>
    if b1 < 128 then utf8Go t1 (Char.ofNat b1 :: acc)
    else
      match t1 with
      | [] => none
      | b2 :: t2 =>
        if 194 ≤ b1 && b1 ≤ 223 then
          if isCont b2 then
            utf8Go t2 (Char.ofNat ((b1 - 192) * 64 + (b2 - 128)) :: acc)
          else none
        else
          match t2 with
          | [] => none
          | b3 :: t3 =>
            if 224 ≤ b1 && b1 ≤ 239 then
              if cont3Ok b1 b2 && isCont b3 then
                utf8Go t3
                  (Char.ofNat ((b1 - 224) * 4096 + (b2 - 128) * 64 + (b3 - 128)) :: acc)
              else none
            else
              match t3 with
              | [] => none
              | b4 :: t4 =>
                if 240 ≤ b1 && b1 ≤ 244 then
                  if cont4Ok b1 b2 && isCont b3 && isCont b4 then
                    utf8Go t4
                      (Char.ofNat ((b1 - 240) * 262144 + (b2 - 128) * 4096 +
                        (b3 - 128) * 64 + (b4 - 128)) :: acc)
                  else none
                else none

/-- `blob.read().decode("utf-8")`: the decoded string, or `none` on a
`UnicodeDecodeError`. -/
def utf8Decode (bs : List Nat) : Option String :=
  match utf8Go bs [] with
  | none => none
  | some cs => some (String.mk cs)

/-! ### The dispatcher (`main`) -/

/-- The triggering event payload: a named binary object. -/
structure Blob where
  name : String
  content : List Nat
  length : Nat

/-- A log entry's level. -/
inductive LogLevel where
  | info
  | warning
deriving DecidableEq, Repr

/-- Python's `str.endswith`: exact, case-sensitive suffix match. -/
def endswith (s suffix : String) : Bool :=
  suffix.data.isSuffixOf s.data

/-- The entry log line of every invocation. -/
def entryLog (blob : Blob) : LogLevel × String :=
  (LogLevel.info,
   "Processing blob: " ++ blob.name ++ ", Size: " ++ toString blob.length ++ " bytes")

/-- The warning logged for an unsupported file type. -/
def unsupportedLog (blob : Blob) : LogLevel × String :=
  (LogLevel.warning, "Unsupported file type for blob: " ++ blob.name)

namespace BlobTriggerFunction

/-- The handler `main`. Returns the accumulated log entries together with
the invocation's outcome: `.ok (some text)` when `outputBlob.set` was
called with `text`, `.ok none` when the function returned without writing
(the unsupported-type branch), and `.error e` when an exception of kind
`e` propagated out (in which case nothing was written). -/
def main (cfg : Config)
    (textSvc : List String → Except String (List SentimentDocItem))
    (imageSvc : List Nat → Except String AnalyzeResult)
    (blob : Blob) : List (LogLevel × String) × Except Err (Option (List Char)) :=
  if endswith blob.name ".txt" then
    match utf8Decode blob.content with
    | none => ([entryLog blob], .error .decodeError)
    | some text =>
      match process_text cfg textSvc text with
      | .error e => ([entryLog blob], .error e)
      | .ok r => ([entryLog blob], .ok (some (dumps r)))
  else if endswith blob.name ".jpg" || endswith blob.name ".png" then
    match process_image cfg imageSvc blob.content with
    | .error e => ([entryLog blob], .error e)
    | .ok r => ([entryLog blob], .ok (some (dumps r)))
  else
    ([entryLog blob, unsupportedLog blob], .ok none)

end BlobTriggerFunction

/-! ### Derived observations used by the claims -/

/-- Number of warning-level entries in a log. -/
def countWarnings (logs : List (LogLevel × String)) : Nat :=
  (logs.filter (fun entry => entry.1 == LogLevel.warning)).length

/-- Whether the top-level JSON object of `j` has a field named `k`. -/
def JVal.hasTopKey (j : JVal) (k : String) : Bool :=
  match j with
  | .jobj o => o.hasKey k
  | _ => false

/-- A batch with a backend-flagged item never normalizes: the loop raises
at that item. -/
theorem collectDocs_failed (resp : List SentimentDocItem)
    (hbad : ∃ d ∈ resp, d.isFailed = true) :
    collectDocs resp = .error .backendError := by
  induction resp with
  | nil => simp at hbad
  | cons hd tl ih =>
    obtain ⟨d, hmem, hfail⟩ := hbad
    cases hd with
    | success id s p n g =>
      have : d ∈ tl := by
        rcases List.mem_cons.mp hmem with h | h
        · subst h; simp [SentimentDocItem.isFailed] at hfail
        · exact h
      simp [collectDocs, ih ⟨d, this, hfail⟩]
    | failed id msg => simp [collectDocs]

/-! ### C1 -/

/-- C1: the dispatcher routes by exact case-sensitive name suffix: a name
ending in `.txt` decodes the bytes as UTF-8 and invokes the Text Strategy
on the decoded string; otherwise a name ending in `.jpg` or `.png`
invokes the Image Strategy on the raw bytes; any other name (including
case variants and other extensions, whose `endswith` checks are all
false) selects no strategy and is a NoOp. -/
theorem c1_dispatch_by_exact_suffix (cfg : Config)
    (tsvc : List String → Except String (List SentimentDocItem))
    (isvc : List Nat → Except String AnalyzeResult) (blob : Blob) :
    (endswith blob.name ".txt" = true →
      BlobTriggerFunction.main cfg tsvc isvc blob =
        (match utf8Decode blob.content with
          | none => ([entryLog blob], .error .decodeError)
          | some text =>
            match process_text cfg tsvc text with
            | .error e => ([entryLog blob], .error e)
            | .ok r => ([entryLog blob], .ok (some (dumps r))))) ∧
    (endswith blob.name ".txt" = false →
      (endswith blob.name ".jpg" = true ∨ endswith blob.name ".png" = true) →
      BlobTriggerFunction.main cfg tsvc isvc blob =
        (match process_image cfg isvc blob.content with
          | .error e => ([entryLog blob], .error e)
          | .ok r => ([entryLog blob], .ok (some (dumps r))))) ∧
    (endswith blob.name ".txt" = false → endswith blob.name ".jpg" = false →
      endswith blob.name ".png" = false →
      BlobTriggerFunction.main cfg tsvc isvc blob =
        ([entryLog blob, unsupportedLog blob], .ok none)) := by
  refine ⟨?_, ?_, ?_⟩
  · intro h1
    simp only [BlobTriggerFunction.main, h1, if_true]
  · intro h1 h2
    rcases h2 with h2 | h2 <;>
      simp only [BlobTriggerFunction.main, h1, h2, Bool.or_true, Bool.true_or,
        Bool.false_eq_true, if_false, if_true]
  · intro h1 h2 h3
    simp [BlobTriggerFunction.main, h1, h2, h3]

/-- C1 witness: a `.txt` blob is routed to the Text Strategy. -/
theorem c1_witness :
    BlobTriggerFunction.main ⟨some "https://e", some "k"⟩
      (fun _ => .ok [.success "1" "positive" ⟨false, 0, [9, 5]⟩ ⟨false, 0, [0, 4]⟩ ⟨false, 0, [0, 1]⟩])
      (fun _ => .ok ⟨"", []⟩)
      ⟨"notes.txt", [104, 105], 2⟩ =
        (match utf8Decode [104, 105] with
          | none => ([entryLog ⟨"notes.txt", [104, 105], 2⟩], .error .decodeError)
          | some text =>
            match process_text ⟨some "https://e", some "k"⟩
              (fun _ => .ok [.success "1" "positive" ⟨false, 0, [9, 5]⟩ ⟨false, 0, [0, 4]⟩ ⟨false, 0, [0, 1]⟩]) text with
            | .error e => ([entryLog ⟨"notes.txt", [104, 105], 2⟩], .error e)
            | .ok r => ([entryLog ⟨"notes.txt", [104, 105], 2⟩], .ok (some (dumps r)))) :=
  (c1_dispatch_by_exact_suffix _ _ _ _).1 (by decide)

/-! ### C2 -/

/-- C2: a blob whose name ends in none of `.txt`, `.jpg`, `.png` produces
no output object, logs exactly one warning, and the invocation completes
normally (outcome `.ok none`, no error). -/
theorem c2_unsupported_is_noop (cfg : Config)
    (tsvc : List String → Except String (List SentimentDocItem))
    (isvc : List Nat → Except String AnalyzeResult) (blob : Blob)
    (h1 : endswith blob.name ".txt" = false)
    (h2 : endswith blob.name ".jpg" = false)
    (h3 : endswith blob.name ".png" = false) :
    (BlobTriggerFunction.main cfg tsvc isvc blob).2 = .ok none ∧
    countWarnings (BlobTriggerFunction.main cfg tsvc isvc blob).1 = 1 := by
  have hm : BlobTriggerFunction.main cfg tsvc isvc blob =
      ([entryLog blob, unsupportedLog blob], .ok none) := by
    simp [BlobTriggerFunction.main, h1, h2, h3]
  rw [hm]
  constructor
  · rfl
  · simp [countWarnings, entryLog, unsupportedLog]

/-- C2 witness: `archive.zip` is a NoOp with one warning. -/
theorem c2_witness :
    (BlobTriggerFunction.main ⟨some "https://e", some "k"⟩
      (fun _ => .ok []) (fun _ => .ok ⟨"", []⟩) ⟨"archive.zip", [1, 2, 3], 3⟩).2 = .ok none ∧
    countWarnings (BlobTriggerFunction.main ⟨some "https://e", some "k"⟩
      (fun _ => .ok []) (fun _ => .ok ⟨"", []⟩) ⟨"archive.zip", [1, 2, 3], 3⟩).1 = 1 :=
  c2_unsupported_is_noop _ _ _ _ (by decide) (by decide) (by decide)

/-! ### C3 -/

/-- C3: when the sentiment response contains an item the backend flagged
as failed (a `DocumentError`), the Text Strategy fails with
`backendError` — the per-item failure surfaces (here via the attribute
access on the error-tagged item) instead of the item being dropped or
rendered as a successful sentiment result. -/
theorem c3_error_tagged_item_fails (e k : String)
    (svc : List String → Except String (List SentimentDocItem))
    (text : String) (resp : List SentimentDocItem)
    (hsvc : svc [text] = .ok resp)
    (hbad : ∃ d ∈ resp, d.isFailed = true) :
    process_text ⟨some e, some k⟩ svc text = .error .backendError := by
  simp [process_text, mkClient, hsvc, collectDocs_failed resp hbad]

/-- C3 witness: a batch whose second item is a `DocumentError` fails even
though the first item succeeded. -/
theorem c3_witness :
    process_text ⟨some "https://e", some "k"⟩
      (fun _ => .ok [.success "0" "neutral" ⟨false, 1, []⟩ ⟨false, 0, []⟩ ⟨false, 0, []⟩,
                     .failed "1" "InvalidDocument"])
      "hello" = .error .backendError :=
  c3_error_tagged_item_fails "https://e" "k" _ "hello" _ rfl
    ⟨.failed "1" "InvalidDocument", by decide, rfl⟩

/-! ### C4 -/

/-- C4: on a successful OCR result, the Image Strategy's envelope has one
entry per backend page, in backend order, each carrying that page's
`page_number` and a `lines` array that is, element for element and in
order, the `content` of that page's lines; no other per-line metadata
(polygon, spans) or per-page metadata (angle, width, height) appears in
the output shape. -/
theorem c4_image_pages_preserved (e k : String)
    (svc : List Nat → Except String AnalyzeResult)
    (bs : List Nat) (res : AnalyzeResult)
    (hsvc : svc bs = .ok res) :
    ∃ ps : List JVal,
      process_image ⟨some e, some k⟩ svc bs =
        .ok (.jobj (.ocons "pages" (.jarr (arrOfList ps)) .onil)) ∧
      ps.length = res.pages.length ∧
      ∀ i : Nat, ∀ p : DocumentPage, res.pages[i]? = some p →
        ∃ ls : List JVal,
          ps[i]? = some (.jobj (.ocons "page_number" (.jnum (JNum.ofInt p.page_number))
            (.ocons "lines" (.jarr (arrOfList ls)) .onil))) ∧
          ls.length = p.lines.length ∧
          ∀ j : Nat, ∀ l : DocumentLine, p.lines[j]? = some l →
            ls[j]? = some (.jstr l.content) := by
  refine ⟨res.pages.map pageJson, ?_, by simp, ?_⟩
  · simp [process_image, mkClient, hsvc]
  · intro i p hp
    refine ⟨p.lines.map (fun l => JVal.jstr l.content), ?_, by simp, ?_⟩
    · simp [List.getElem?_map, hp, pageJson]
    · intro j l hl
      simp [List.getElem?_map, hl]

/-- C4 witness: spec Scenario B — two pages, lines preserved verbatim. -/
theorem c4_witness :
    ∃ ps : List JVal,
      process_image ⟨some "https://e", some "k"⟩
        (fun _ => .ok ⟨"Invoice", [⟨1, none, none, none,
            [⟨"Invoice #42", [], []⟩, ⟨"Total: $10.00", [], []⟩]⟩,
          ⟨2, none, none, none, [⟨"Thank you", [], []⟩]⟩]⟩)
        [1, 2] =
        .ok (.jobj (.ocons "pages" (.jarr (arrOfList ps)) .onil)) ∧
      ps.length = 2 ∧
      ∀ i : Nat, ∀ p : DocumentPage,
        ([⟨1, none, none, none,
            [⟨"Invoice #42", [], []⟩, ⟨"Total: $10.00", [], []⟩]⟩,
          ⟨2, none, none, none, [⟨"Thank you", [], []⟩]⟩] :
            List DocumentPage)[i]? = some p →
        ∃ ls : List JVal,
          ps[i]? = some (.jobj (.ocons "page_number" (.jnum (JNum.ofInt p.page_number))
            (.ocons "lines" (.jarr (arrOfList ls)) .onil))) ∧
          ls.length = p.lines.length ∧
          ∀ j : Nat, ∀ l : DocumentLine, p.lines[j]? = some l →
            ls[j]? = some (.jstr l.content) :=
  c4_image_pages_preserved "https://e" "k"
    (fun _ => .ok ⟨"Invoice", [⟨1, none, none, none,
        [⟨"Invoice #42", [], []⟩, ⟨"Total: $10.00", [], []⟩]⟩,
      ⟨2, none, none, none, [⟨"Thank you", [], []⟩]⟩]⟩)
    [1, 2]
    ⟨"Invoice", [⟨1, none, none, none,
        [⟨"Invoice #42", [], []⟩, ⟨"Total: $10.00", [], []⟩]⟩,
      ⟨2, none, none, none, [⟨"Thank you", [], []⟩]⟩]⟩ rfl

/-! ### C5 -/

/-- C5: for a valid-UTF-8 `.txt` blob, when the backend returns exactly one
successful per-document result (for the single submitted document) with
confidence scores inside `[0,1]`, the Text Strategy's envelope holds a
`documents` array whose length equals the number of submitted documents
(one), whose single element carries the backend's `id`, `sentiment` and
the three confidence scores in the backend's order, and whose scores lie
in `[0,1]`. -/
theorem c5_text_single_document (e k : String)
    (svc : List String → Except String (List SentimentDocItem))
    (text : String) (id sent : String) (p n g : JNum)
    (hsvc : svc [text] = .ok [.success id sent p n g])
    (hp0 : 0 ≤ p.val) (hp1 : p.val ≤ 1)
    (hn0 : 0 ≤ n.val) (hn1 : n.val ≤ 1)
    (hg0 : 0 ≤ g.val) (hg1 : g.val ≤ 1) :
    ∃ docs : List JVal,
      process_text ⟨some e, some k⟩ svc text =
        .ok (.jobj (.ocons "documents" (.jarr (arrOfList docs)) .onil)) ∧
      docs.length = ([text] : List String).length ∧
      docs[0]? = some (docJson id sent p n g) ∧
      (0 ≤ p.val ∧ p.val ≤ 1) ∧ (0 ≤ n.val ∧ n.val ≤ 1) ∧ (0 ≤ g.val ∧ g.val ≤ 1) := by
  refine ⟨[docJson id sent p n g], ?_, rfl, rfl, ⟨hp0, hp1⟩, ⟨hn0, hn1⟩, ⟨hg0, hg1⟩⟩
  simp [process_text, mkClient, hsvc, collectDocs]

/-- C5 witness: spec Scenario A — one positive document with scores
`0.95 / 0.04 / 0.01`. -/
theorem c5_witness :
    ∃ docs : List JVal,
      process_text ⟨some "https://e", some "k"⟩
        (fun _ => .ok [.success "1" "positive"
          ⟨false, 0, [9, 5]⟩ ⟨false, 0, [0, 4]⟩ ⟨false, 0, [0, 1]⟩])
        "I love this product!" =
        .ok (.jobj (.ocons "documents" (.jarr (arrOfList docs)) .onil)) ∧
      docs.length = (["I love this product!"] : List String).length ∧
      docs[0]? = some (docJson "1" "positive"
        ⟨false, 0, [9, 5]⟩ ⟨false, 0, [0, 4]⟩ ⟨false, 0, [0, 1]⟩) ∧
      (0 ≤ JNum.val ⟨false, 0, [9, 5]⟩ ∧ JNum.val ⟨false, 0, [9, 5]⟩ ≤ 1) ∧
      (0 ≤ JNum.val ⟨false, 0, [0, 4]⟩ ∧ JNum.val ⟨false, 0, [0, 4]⟩ ≤ 1) ∧
      (0 ≤ JNum.val ⟨false, 0, [0, 1]⟩ ∧ JNum.val ⟨false, 0, [0, 1]⟩ ≤ 1) :=
  c5_text_single_document "https://e" "k" _ "I love this product!" "1" "positive"
    _ _ _ rfl
    (by norm_num [JNum.val, fracVal, show ((9 : Fin 10) : Nat) = 9 from rfl,
      show ((5 : Fin 10) : Nat) = 5 from rfl])
    (by norm_num [JNum.val, fracVal, show ((9 : Fin 10) : Nat) = 9 from rfl,
      show ((5 : Fin 10) : Nat) = 5 from rfl])
    (by norm_num [JNum.val, fracVal, show ((0 : Fin 10) : Nat) = 0 from rfl,
      show ((4 : Fin 10) : Nat) = 4 from rfl])
    (by norm_num [JNum.val, fracVal, show ((0 : Fin 10) : Nat) = 0 from rfl,
      show ((4 : Fin 10) : Nat) = 4 from rfl])
    (by norm_num [JNum.val, fracVal, show ((0 : Fin 10) : Nat) = 0 from rfl,
      show ((1 : Fin 10) : Nat) = 1 from rfl])
    (by norm_num [JNum.val, fracVal, show ((0 : Fin 10) : Nat) = 0 from rfl,
      show ((1 : Fin 10) : Nat) = 1 from rfl])

/-! ### C6 -/

/-- C6: a `.txt` blob whose bytes are not valid UTF-8 fails the invocation
with `decodeError` (the decode failure propagates, nothing recovers it)
and no output object is written. -/
theorem c6_invalid_utf8_fails (cfg : Config)
    (tsvc : List String → Except String (List SentimentDocItem))
    (isvc : List Nat → Except String AnalyzeResult) (blob : Blob)
    (h1 : endswith blob.name ".txt" = true)
    (h2 : utf8Decode blob.content = none) :
    BlobTriggerFunction.main cfg tsvc isvc blob = ([entryLog blob], .error .decodeError) ∧
    ∀ out, (BlobTriggerFunction.main cfg tsvc isvc blob).2 ≠ .ok out := by
  have hm : BlobTriggerFunction.main cfg tsvc isvc blob =
      ([entryLog blob], .error .decodeError) := by
    simp [BlobTriggerFunction.main, h1, h2]
  exact ⟨hm, fun out h => by rw [hm] at h; exact Except.noConfusion h⟩

/-- C6 witness: the lone byte `0xFF` is invalid UTF-8. -/
theorem c6_witness :
    BlobTriggerFunction.main ⟨some "https://e", some "k"⟩
      (fun _ => .ok []) (fun _ => .ok ⟨"", []⟩) ⟨"bad.txt", [255], 1⟩ =
      ([entryLog ⟨"bad.txt", [255], 1⟩], .error .decodeError) ∧
    ∀ out, (BlobTriggerFunction.main ⟨some "https://e", some "k"⟩
      (fun _ => .ok []) (fun _ => .ok ⟨"", []⟩) ⟨"bad.txt", [255], 1⟩).2 ≠ .ok out :=
  c6_invalid_utf8_fails _ _ _ _ (by decide) (by decide)

/-! ### C7 -/

/-- C7: with `AZURE_AI_ENDPOINT` or `AZURE_AI_KEY` missing, each strategy
fails with `configError` at client construction, for every possible
backend capability — i.e. the result does not depend on the backend at
all, so no remote call with an unconfigured client is ever issued. -/
theorem c7_missing_config_fails_fast (cfg : Config)
    (h : cfg.endpoint = none ∨ cfg.key = none) :
    (∀ (svc : List String → Except String (List SentimentDocItem)) (text : String),
      process_text cfg svc text = .error .configError) ∧
    (∀ (svc : List Nat → Except String AnalyzeResult) (bs : List Nat),
      process_image cfg svc bs = .error .configError) := by
  have hc : mkClient cfg = .error .configError := by
    rcases h with h | h <;> rcases hk : cfg.key with _ | v
    · simp [mkClient, hk]
    · simp [mkClient, hk, h]
    · simp [mkClient, hk]
    · rw [hk] at h; exact absurd h (Option.some_ne_none v)
  exact ⟨fun svc text => by simp [process_text, hc],
         fun svc bs => by simp [process_image, hc]⟩

/-- C7 witness: with no key set, both strategies fail with `configError`
for a concrete backend that would otherwise answer. -/
theorem c7_witness :
    process_text ⟨some "https://e", none⟩ (fun _ => .ok []) "hello" = .error .configError ∧
    process_image ⟨some "https://e", none⟩ (fun _ => .ok ⟨"", []⟩) [1] = .error .configError :=
  ⟨(c7_missing_config_fails_fast ⟨some "https://e", none⟩ (Or.inr rfl)).1 _ "hello",
   (c7_missing_config_fails_fast ⟨some "https://e", none⟩ (Or.inr rfl)).2 _ [1]⟩

/-! ### C9 -/

/-- C9: every envelope a strategy returns carries exactly one collection
key — a Text Strategy envelope's only top-level key is `documents`, an
Image Strategy envelope's only top-level key is `pages` (so no schema tag
or other discriminator key exists), and no envelope ever has both keys. -/
theorem c9_envelope_single_collection (cfg : Config)
    (tsvc : List String → Except String (List SentimentDocItem))
    (isvc : List Nat → Except String AnalyzeResult) :
    (∀ text j, process_text cfg tsvc text = .ok j → topKeys j = ["documents"]) ∧
    (∀ bs j, process_image cfg isvc bs = .ok j → topKeys j = ["pages"]) ∧
    (∀ text bs j,
      (process_text cfg tsvc text = .ok j ∨ process_image cfg isvc bs = .ok j) →
      ¬(j.hasTopKey "documents" = true ∧ j.hasTopKey "pages" = true)) := by
  have htext : ∀ text j, process_text cfg tsvc text = .ok j →
      ∃ a, j = .jobj (.ocons "documents" (.jarr a) .onil) := by
    intro text j h
    unfold process_text at h
    repeat' split at h
    all_goals cases h
    exact ⟨_, rfl⟩
  have himg : ∀ bs j, process_image cfg isvc bs = .ok j →
      ∃ a, j = .jobj (.ocons "pages" (.jarr a) .onil) := by
    intro bs j h
    unfold process_image at h
    repeat' split at h
    all_goals cases h
    exact ⟨_, rfl⟩
  refine ⟨?_, ?_, ?_⟩
  · intro text j h
    obtain ⟨a, rfl⟩ := htext text j h
    rfl
  · intro bs j h
    obtain ⟨a, rfl⟩ := himg bs j h
    rfl
  · intro text bs j h
    rcases h with h | h
    · obtain ⟨a, rfl⟩ := htext text j h
      rintro ⟨-, hpages⟩
      simp [JVal.hasTopKey, JObj.hasKey, JObj.keys] at hpages
    · obtain ⟨a, rfl⟩ := himg bs j h
      rintro ⟨hdocs, -⟩
      simp [JVal.hasTopKey, JObj.hasKey, JObj.keys] at hdocs

/-- C9 witness: concrete envelopes from both strategies have exactly their
own collection key. -/
theorem c9_witness :
    topKeys (.jobj (.ocons "documents" (.jarr .anil) .onil)) = ["documents"] ∧
    topKeys (.jobj (.ocons "pages" (.jarr .anil) .onil)) = ["pages"] :=
  ⟨(c9_envelope_single_collection ⟨some "https://e", some "k"⟩
      (fun _ => .ok []) (fun _ => .ok ⟨"", []⟩)).1 "hi" _ rfl,
   (c9_envelope_single_collection ⟨some "https://e", some "k"⟩
      (fun _ => .ok []) (fun _ => .ok ⟨"", []⟩)).2.1 [1] _ rfl⟩

/-! ### C10 -/

/-- C10: a supported blob whose backend call succeeds with an empty
collection still writes an output object: the envelope with an empty
`documents` (resp. `pages`) array; the empty result is not turned into a
NoOp. -/
theorem c10_empty_backend_still_writes (e k : String)
    (tsvc : List String → Except String (List SentimentDocItem))
    (isvc : List Nat → Except String AnalyzeResult) (blob : Blob)
    (text : String) (res : AnalyzeResult) :
    (endswith blob.name ".txt" = true →
      utf8Decode blob.content = some text →
      tsvc [text] = .ok [] →
      BlobTriggerFunction.main ⟨some e, some k⟩ tsvc isvc blob =
        ([entryLog blob],
          .ok (some (dumps (.jobj (.ocons "documents" (.jarr .anil) .onil)))))) ∧
    (endswith blob.name ".txt" = false →
      (endswith blob.name ".jpg" = true ∨ endswith blob.name ".png" = true) →
      isvc blob.content = .ok res →
      res.pages = [] →
      BlobTriggerFunction.main ⟨some e, some k⟩ tsvc isvc blob =
        ([entryLog blob],
          .ok (some (dumps (.jobj (.ocons "pages" (.jarr .anil) .onil)))))) := by
  constructor
  · intro h1 hdec hsvc
    have hp : process_text ⟨some e, some k⟩ tsvc text =
        .ok (.jobj (.ocons "documents" (.jarr .anil) .onil)) := by
      simp [process_text, mkClient, hsvc, collectDocs, arrOfList]
    simp [BlobTriggerFunction.main, h1, hdec, hp]
  · intro h1 h2 hsvc hpages
    have hp : process_image ⟨some e, some k⟩ isvc blob.content =
        .ok (.jobj (.ocons "pages" (.jarr .anil) .onil)) := by
      simp [process_image, mkClient, hsvc, hpages, arrOfList]
    rcases h2 with h2 | h2 <;>
      simp [BlobTriggerFunction.main, h1, h2, hp]

/-- C10 witness: an empty sentiment batch for `a.txt` still writes
`{"documents": []}`, and an OCR result with zero pages for `b.png` still
writes `{"pages": []}`. -/
theorem c10_witness :
    (BlobTriggerFunction.main ⟨some "https://e", some "k"⟩
      (fun _ => .ok []) (fun _ => .ok ⟨"", []⟩) ⟨"a.txt", [104], 1⟩ =
        ([entryLog ⟨"a.txt", [104], 1⟩],
          .ok (some (dumps (.jobj (.ocons "documents" (.jarr .anil) .onil)))))) ∧
    (BlobTriggerFunction.main ⟨some "https://e", some "k"⟩
      (fun _ => .ok []) (fun _ => .ok ⟨"", []⟩) ⟨"b.png", [7], 1⟩ =
        ([entryLog ⟨"b.png", [7], 1⟩],
          .ok (some (dumps (.jobj (.ocons "pages" (.jarr .anil) .onil)))))) :=
  ⟨(c10_empty_backend_still_writes "https://e" "k"
      (fun _ => .ok []) (fun _ => .ok ⟨"", []⟩) ⟨"a.txt", [104], 1⟩ "h" ⟨"", []⟩).1
      (by decide) (by decide) rfl,
   (c10_empty_backend_still_writes "https://e" "k"
      (fun _ => .ok []) (fun _ => .ok ⟨"", []⟩) ⟨"b.png", [7], 1⟩ "h" ⟨"", []⟩).2
      (by decide) (Or.inr (by decide)) rfl rfl⟩

/-! ### Parsing (`json.loads` on the canonical text `dumps` produces) -/

/-- The digit denoted by a character, if any (code points 48 to 57). -/
def digitVal (c : Char) : Option (Fin 10) :=
  if h : 48 ≤ c.toNat ∧ c.toNat ≤ 57 then some ⟨c.toNat - 48, by omega⟩ else none

/-- The value of a lowercase hex character, if any. -/
def hexVal (c : Char) : Option Nat :=
  if 48 ≤ c.toNat ∧ c.toNat ≤ 57 then some (c.toNat - 48)
  else if 97 ≤ c.toNat ∧ c.toNat ≤ 102 then some (c.toNat - 87)
  else none

/-- The value of a four-hex-digit escape body, if all four are hex. -/
def hex4 (a b c d : Char) : Option Nat :=
  match hexVal a, hexVal b, hexVal c, hexVal d with
  | some va, some vb, some vc, some vd =>
    some (((va * 16 + vb) * 16 + vc) * 16 + vd)
  | _, _, _, _ => none

/-- The character denoted by a one-letter escape, if any: the three
self-representing escapes, then the five control-character letters. -/
def simpleUnescape (c : Char) : Option Char :=
  if c = '"' ∨ c = '\\' ∨ c = '/' then some c
  else if c = 'b' then some (Char.ofNat 8)
  else if c = 't' then some (Char.ofNat 9)
  else if c = 'n' then some (Char.ofNat 10)
  else if c = 'f' then some (Char.ofNat 12)
  else if c = 'r' then some (Char.ofNat 13)
  else none

/-- The maximal leading digit run, as digit values, with the remainder. -/
def grabDigits : List Char → List (Fin 10) × List Char
  | [] => ([], [])
  | c :: r =>
    match digitVal c with
    | some d =>
      match grabDigits r with
      | (ds, r2) => (d :: ds, r2)
    | none => ([], c :: r)

/-- The number a digit-value list denotes, most significant first. -/
def digitsVal (ds : List (Fin 10)) : Nat :=
  ds.foldl (fun a d => 10 * a + d.val) 0

/-- Parse an unsigned number token: digits, optionally `.` and digits. -/
def loadsNumCore (cs : List Char) : Option ((Nat × List (Fin 10)) × List Char) :=
  match grabDigits cs with
  | ([], _) => none
  | (ds, r) =>
    match r with
    | '.' :: r2 =>
      match grabDigits r2 with
      | ([], _) => none
      | (fs, r3) => some ((digitsVal ds, fs), r3)
    | _ => some ((digitsVal ds, []), r)

/-- Parse a number token with its optional sign. -/
def loadsNum (cs : List Char) : Option (JNum × List Char) :=
  match cs with
  | '-' :: r =>
    match loadsNumCore r with
    | none => none
    | some ((ip, fs), r2) => some (⟨true, ip, fs⟩, r2)
  | _ =>
    match loadsNumCore cs with
    | none => none
    | some ((ip, fs), r2) => some (⟨false, ip, fs⟩, r2)

/-- One step of string-body parsing: either a final answer, or one decoded
character pushed onto the accumulator with the remaining input. -/
inductive StrStep where
  | done (out : Option (String × List Char))
  | more (acc : List Char) (rest : List Char)

/-- Decode one unit of a string body after the opening quote: the closing
quote ends it; a backslash starts an escape (`\uXXXX`, with a low
surrogate required after a high one, or a one-letter escape); any other
character stands for itself. -/
def strStep (acc : List Char) (cs : List Char) : StrStep :=
  match cs with
  | [] => .done none
  | c :: rest =>
    if c = '"' then .done (some (String.mk acc.reverse, rest))
    else if c = '\\' then
      match rest with
      | [] => .done none
      | e :: rest2 =>
        if e = 'u' then
          match rest2 with
          | a :: b :: c3 :: d :: rest3 =>
            match hex4 a b c3 d with
            | none => .done none
            | some v =>
              if 55296 ≤ v ∧ v ≤ 56319 then
                match rest3 with
                | b5 :: u5 :: a2 :: b2 :: c2 :: d2 :: rest4 =>
                  if b5 = '\\' ∧ u5 = 'u' then
                    match hex4 a2 b2 c2 d2 with
                    | none => .done none
                    | some w =>
                      if 56320 ≤ w ∧ w ≤ 57343 then
                        .more (Char.ofNat (65536 + (v - 55296) * 1024 + (w - 56320)) :: acc)
                          rest4
                      else .done none
                  else .done none
                | _ => .done none
              else if 56320 ≤ v ∧ v ≤ 57343 then .done none
              else .more (Char.ofNat v :: acc) rest3
          | _ => .done none
        else
          match simpleUnescape e with
          | none => .done none
          | some ch => .more (ch :: acc) rest2
    else .more (c :: acc) rest

/-- Parse a string body after the opening quote, one `strStep` per fuel
unit (each step consumes at least one input character, so the caller's
fuel of input length plus one always suffices). -/
def loadsStrBody : Nat → List Char → List Char → Option (String × List Char)
  | 0, _, _ => none
  | fuel + 1, acc, cs =>
    match strStep acc cs with
    | .done out => out
    | .more acc2 rest2 => loadsStrBody fuel acc2 rest2

/-- Parse a string token after its opening quote. -/
def loadsStr (cs : List Char) : Option (String × List Char) :=
  loadsStrBody (cs.length + 1) [] cs

mutual
/-- Parse one JSON value of the canonical format (fueled recursion). -/
def loadsV : Nat → List Char → Option (JVal × List Char)
  | 0, _ => none
  | fuel + 1, cs =>
    match cs with
    | '"' :: r =>
      match loadsStr r with
      | none => none
      | some (s, r2) => some (.jstr s, r2)
    | '[' :: ']' :: r => some (.jarr .anil, r)
    | '[' :: r =>
      match loadsV fuel r with
      | none => none
      | some (v, r2) =>
        match loadsItems fuel r2 with
        | none => none
        | some (tl, r3) => some (.jarr (.acons v tl), r3)
    | '{' :: '}' :: r => some (.jobj .onil, r)
    | '{' :: '"' :: r =>
      match loadsStr r with
      | none => none
      | some (k, r2) =>
        match r2 with
        | ':' :: ' ' :: r3 =>
          match loadsV fuel r3 with
          | none => none
          | some (v, r4) =>
            match loadsFields fuel r4 with
            | none => none
            | some (tl, r5) => some (.jobj (.ocons k v tl), r5)
        | _ => none
    | _ =>
      match loadsNum cs with
      | none => none
      | some (x, r) => some (.jnum x, r)

/-- Parse the `", item"` continuations of an array body up to `]`. -/
def loadsItems : Nat → List Char → Option (JArr × List Char)
  | 0, _ => none
  | fuel + 1, cs =>
    match cs with
    | ']' :: r => some (.anil, r)
    | ',' :: ' ' :: r =>
      match loadsV fuel r with
      | none => none
      | some (v, r2) =>
        match loadsItems fuel r2 with
        | none => none
        | some (tl, r3) => some (.acons v tl, r3)
    | _ => none

/-- Parse the `", \"key\": value"` continuations of an object body up to
`}`. -/
def loadsFields : Nat → List Char → Option (JObj × List Char)
  | 0, _ => none
  | fuel + 1, cs =>
    match cs with
    | '}' :: r => some (.onil, r)
    | ',' :: ' ' :: '"' :: r =>
      match loadsStr r with
      | none => none
      | some (k, r2) =>
        match r2 with
        | ':' :: ' ' :: r3 =>
          match loadsV fuel r3 with
          | none => none
          | some (v, r4) =>
            match loadsFields fuel r4 with
            | none => none
            | some (tl, r5) => some (.ocons k v tl, r5)
        | _ => none
    | _ => none
end

/-- `json.loads` of a complete document: one value, no trailing text. -/
def loads (cs : List Char) : Option JVal :=
  match loadsV (cs.length + 1) cs with
  | some (j, []) => some j
  | _ => none

/-! ### Round-trip: digit and number tokens -/

theorem digitVal_digitChar : ∀ d : Fin 10, digitVal (digitChar d) = some d := by decide

theorem digitChar_ne : ∀ d : Fin 10,
    digitChar d ≠ '-' ∧ digitChar d ≠ '.' ∧ digitChar d ≠ '"' ∧
    digitChar d ≠ '[' ∧ digitChar d ≠ '{' := by decide

/-- A remainder that cannot extend a digit run: empty or not digit-headed. -/
def digitStop : List Char → Prop
  | [] => True
  | c :: _ => digitVal c = none

/-- A remainder that cannot extend a fraction: also not dot-headed. -/
def dotStop : List Char → Prop
  | [] => True
  | c :: _ => c ≠ '.'

/-- A remainder that cannot extend a number token. -/
def numStop (cs : List Char) : Prop := digitStop cs ∧ dotStop cs

theorem grabDigits_stop (cs : List Char) (h : digitStop cs) :
    grabDigits cs = ([], cs) := by
  cases cs with
  | nil => rfl
  | cons c t => simp [grabDigits, show digitVal c = none from h]

theorem grabDigits_run (ds : List (Fin 10)) (rest : List Char)
    (hrest : digitStop rest) :
    grabDigits (ds.map digitChar ++ rest) = (ds, rest) := by
  induction ds with
  | nil => simpa using grabDigits_stop rest hrest
  | cons d tl ih => simp [grabDigits, digitVal_digitChar, ih]

/-- The digit values behind `natCharsGo`, for the value round-trip. -/
def natFinsGo : Nat → Nat → List (Fin 10)
  | 0, _ => []
  | fuel + 1, n =>
    if h : n < 10 then [⟨n, h⟩]
    else natFinsGo fuel (n / 10) ++ [⟨n % 10, Nat.mod_lt _ (by omega)⟩]

theorem natCharsGo_eq_map (fuel n : Nat) :
    natCharsGo fuel n = (natFinsGo fuel n).map digitChar := by
  induction fuel generalizing n with
  | zero => rfl
  | succ f ih =>
    by_cases h : n < 10 <;> simp [natCharsGo, natFinsGo, h, ih]

theorem natChars_eq_map (n : Nat) :
    natChars n = (natFinsGo n.succ n).map digitChar :=
  natCharsGo_eq_map n.succ n

theorem digitsVal_append_digit (ds : List (Fin 10)) (d : Fin 10) :
    digitsVal (ds ++ [d]) = 10 * digitsVal ds + d.val := by
  simp [digitsVal, List.foldl_append]

theorem digitsVal_natFinsGo (fuel n : Nat) (h : n < fuel) :
    digitsVal (natFinsGo fuel n) = n := by
  induction fuel generalizing n with
  | zero => omega
  | succ f ih =>
    by_cases h10 : n < 10
    · simp [natFinsGo, h10, digitsVal]
    · have hdiv : n / 10 < f := by
        have := Nat.div_lt_self (show 0 < n by omega) (show 1 < 10 by omega)
        omega
      rw [natFinsGo, dif_neg h10, digitsVal_append_digit, ih _ hdiv]
      show 10 * (n / 10) + n % 10 = n
      omega

theorem natFinsGo_ne_nil (f n : Nat) : natFinsGo (f + 1) n ≠ [] := by
  by_cases h : n < 10 <;> simp [natFinsGo, h]

theorem natChars_cons (n : Nat) : ∃ d t, natChars n = digitChar d :: t := by
  rw [natChars_eq_map]
  cases hf : natFinsGo n.succ n with
  | nil => exact absurd hf (natFinsGo_ne_nil n n)
  | cons d t => exact ⟨d, t.map digitChar, by simp⟩

theorem loadsNumCore_dump (ip : Nat) (fs : List (Fin 10)) (rest : List Char)
    (hrest : numStop rest) :
    loadsNumCore (natChars ip ++
      ((if fs.isEmpty then [] else '.' :: fs.map digitChar) ++ rest)) =
      some ((ip, fs), rest) := by
  obtain ⟨hdig, hdot⟩ := hrest
  cases fs with
  | nil =>
    rw [natChars_eq_map]
    simp only [List.isEmpty_nil, if_true, List.nil_append]
    rw [loadsNumCore, grabDigits_run _ rest hdig]
    cases hf : natFinsGo ip.succ ip with
    | nil => exact absurd hf (natFinsGo_ne_nil ip ip)
    | cons d t =>
      have hval : digitsVal (d :: t) = ip := by
        rw [← hf]; exact digitsVal_natFinsGo ip.succ ip (Nat.lt_succ_self ip)
      cases rest with
      | nil => simp [hval]
      | cons c r =>
        have hc : c ≠ '.' := hdot
        simp [hval, hc]
  | cons f0 fs' =>
    rw [natChars_eq_map]
    simp only [List.isEmpty_cons, Bool.false_eq_true, if_false, List.cons_append,
      List.append_assoc]
    rw [loadsNumCore, grabDigits_run _ _ (show digitStop ('.' :: _) from rfl)]
    cases hf : natFinsGo ip.succ ip with
    | nil => exact absurd hf (natFinsGo_ne_nil ip ip)
    | cons d t =>
      have hval : digitsVal (d :: t) = ip := by
        rw [← hf]; exact digitsVal_natFinsGo ip.succ ip (Nat.lt_succ_self ip)
      have hrun : grabDigits (List.map digitChar (f0 :: fs') ++ rest) = (f0 :: fs', rest) :=
        grabDigits_run _ rest hdig
      simp only [List.map_cons, List.cons_append] at hrun
      simp [hrun, hval]

theorem loadsNum_dumpNum (x : JNum) (rest : List Char) (h : numStop rest) :
    loadsNum (dumpNum x ++ rest) = some (x, rest) := by
  obtain ⟨ng, ip, fs⟩ := x
  cases ng with
  | true =>
    have harg : dumpNum ⟨true, ip, fs⟩ ++ rest =
        '-' :: (natChars ip ++
          ((if fs.isEmpty then [] else '.' :: fs.map digitChar) ++ rest)) := by
      simp [dumpNum]
    rw [harg, loadsNum, loadsNumCore_dump ip fs rest h]
  | false =>
    obtain ⟨d, t, hn⟩ := natChars_cons ip
    have harg : dumpNum ⟨false, ip, fs⟩ ++ rest =
        digitChar d :: (t ++
          ((if fs.isEmpty then [] else '.' :: fs.map digitChar) ++ rest)) := by
      simp [dumpNum, hn]
    have hcore := loadsNumCore_dump ip fs rest h
    rw [hn] at hcore
    simp only [List.cons_append, List.append_assoc] at hcore
    rw [harg, loadsNum]
    have hne : digitChar d ≠ '-' := (digitChar_ne d).1
    split
    · rename_i heq
      rw [hcore] at heq
      exact Option.noConfusion heq
    · rename_i x ip2 fs2 r2 heq
      rw [hcore] at heq
      simp only [Option.some.injEq, Prod.mk.injEq] at heq
      obtain ⟨⟨h1, h2⟩, h3⟩ := heq
      subst h1
      subst h2
      subst h3
      rfl
    · intro r heq
      injection heq with h1 h2
      exact absurd h1 (digitChar_ne d).1

/-! ### Round-trip: string tokens -/

theorem hexVal_hexChar : ∀ v < 16, hexVal (hexChar v) = some v := by decide

/-- A character's code point avoids the surrogate range and the Unicode
bound (the `Char` validity invariant, as `Nat` facts). -/
theorem char_toNat_ranges (c : Char) :
    c.toNat < 55296 ∨ (57343 < c.toNat ∧ c.toNat < 1114112) := by
  rcases c.valid with h | ⟨h1, h2⟩
  · left; exact h
  · right; exact ⟨h1, h2⟩

/-- Consuming one `\uXXXX` escape of a non-surrogate value. -/
theorem strStep_u (acc rest : List Char) (v : Nat) (hv : v < 65536)
    (hns : v < 55296 ∨ 57343 < v) :
    strStep acc (hexEscape v ++ rest) = .more (Char.ofNat v :: acc) rest := by
  have h1 := hexVal_hexChar (v / 4096 % 16) (by omega)
  have h2 := hexVal_hexChar (v / 256 % 16) (by omega)
  have h3 := hexVal_hexChar (v / 16 % 16) (by omega)
  have h4 := hexVal_hexChar (v % 16) (by omega)
  have hV : ((v / 4096 % 16 * 16 + v / 256 % 16) * 16 + v / 16 % 16) * 16 + v % 16 = v := by
    omega
  simp only [hexEscape, List.cons_append]
  rw [strStep]
  rw [if_neg (by decide), if_pos rfl, if_pos rfl]
  rw [hex4, h1, h2, h3, h4]
  simp only [hV]
  rw [if_neg (by omega), if_neg (by omega), List.nil_append]

/-- Consuming the surrogate-pair escape of an astral code point, stated
over the two surrogate values. -/
theorem strStep_pair (acc rest : List Char) (v w n : Nat)
    (hvr : 55296 ≤ v ∧ v ≤ 56319) (hwr : 56320 ≤ w ∧ w ≤ 57343)
    (hcomb : 65536 + (v - 55296) * 1024 + (w - 56320) = n) :
    strStep acc (hexEscape v ++ (hexEscape w ++ rest)) =
      .more (Char.ofNat n :: acc) rest := by
  have h1 := hexVal_hexChar (v / 4096 % 16) (by omega)
  have h2 := hexVal_hexChar (v / 256 % 16) (by omega)
  have h3 := hexVal_hexChar (v / 16 % 16) (by omega)
  have h4 := hexVal_hexChar (v % 16) (by omega)
  have hV : ((v / 4096 % 16 * 16 + v / 256 % 16) * 16 + v / 16 % 16) * 16 + v % 16 = v := by
    omega
  have g1 := hexVal_hexChar (w / 4096 % 16) (by omega)
  have g2 := hexVal_hexChar (w / 256 % 16) (by omega)
  have g3 := hexVal_hexChar (w / 16 % 16) (by omega)
  have g4 := hexVal_hexChar (w % 16) (by omega)
  have hW : ((w / 4096 % 16 * 16 + w / 256 % 16) * 16 + w / 16 % 16) * 16 + w % 16 = w := by
    omega
  simp only [hexEscape, List.cons_append]
  rw [strStep]
  rw [if_neg (by decide), if_pos rfl, if_pos rfl]
  rw [hex4, h1, h2, h3, h4]
  simp only [hV]
  rw [if_pos hvr]
  simp only [List.nil_append]
  rw [if_pos (⟨trivial, trivial⟩ : True ∧ True)]
  rw [hex4, g1, g2, g3, g4]
  simp only [hW]
  rw [if_pos hwr, hcomb]

/-- One decoded character per escape unit: `strStep` undoes `escapeChar`. -/
theorem strStep_escape (c : Char) (acc rest : List Char) :
    strStep acc (escapeChar c ++ rest) = .more (c :: acc) rest := by
  by_cases h1 : c = '"'
  · subst h1; rfl
  by_cases h2 : c = '\\'
  · subst h2; rfl
  by_cases h3 : c.toNat = 8
  · have hc : c = Char.ofNat 8 := by rw [← h3, Char.ofNat_toNat]
    subst hc; rfl
  by_cases h4 : c.toNat = 9
  · have hc : c = Char.ofNat 9 := by rw [← h4, Char.ofNat_toNat]
    subst hc; rfl
  by_cases h5 : c.toNat = 10
  · have hc : c = Char.ofNat 10 := by rw [← h5, Char.ofNat_toNat]
    subst hc; rfl
  by_cases h6 : c.toNat = 12
  · have hc : c = Char.ofNat 12 := by rw [← h6, Char.ofNat_toNat]
    subst hc; rfl
  by_cases h7 : c.toNat = 13
  · have hc : c = Char.ofNat 13 := by rw [← h7, Char.ofNat_toNat]
    subst hc; rfl
  by_cases hA : c.toNat < 32 ∨ 126 < c.toNat
  · rw [escapeChar, if_neg h1, if_neg h2, if_neg h3, if_neg h4, if_neg h5,
      if_neg h6, if_neg h7, if_pos hA]
    rcases char_toNat_ranges c with hr | ⟨hr1, hr2⟩
    · rw [if_pos (show c.toNat < 65536 by omega),
        strStep_u acc rest c.toNat (by omega) (Or.inl hr), Char.ofNat_toNat]
    · by_cases hb : c.toNat < 65536
      · rw [if_pos hb, strStep_u acc rest c.toNat hb (Or.inr hr1), Char.ofNat_toNat]
      · rw [if_neg hb, List.append_assoc,
          strStep_pair acc rest _ _ c.toNat
            (by constructor <;> omega)
            (by constructor <;> omega)
            (by omega),
          Char.ofNat_toNat]
  · rw [escapeChar, if_neg h1, if_neg h2, if_neg h3, if_neg h4, if_neg h5,
      if_neg h6, if_neg h7, if_neg hA, List.singleton_append, strStep.eq_def]
    dsimp only
    rw [if_neg h1, if_neg h2]

/-- Running the body parser over an escaped character run stops exactly at
the closing quote and returns the original characters. -/
theorem loadsStrBody_run (ds : List Char) : ∀ (fuel : Nat) (acc rest : List Char),
    ds.length < fuel →
    loadsStrBody fuel acc (ds.flatMap escapeChar ++ '"' :: rest) =
      some (String.mk (acc.reverse ++ ds), rest) := by
  induction ds with
  | nil =>
    intro fuel acc rest hf
    match fuel, hf with
    | f + 1, _ =>
      simp [loadsStrBody, strStep]
  | cons c ds ih =>
    intro fuel acc rest hf
    match fuel, hf with
    | f + 1, hf2 =>
      rw [List.flatMap_cons, List.append_assoc, loadsStrBody, strStep_escape]
      dsimp only
      rw [ih f (c :: acc) rest (by simp only [List.length_cons] at hf2; omega)]
      simp

theorem escapeChar_ne_nil (c : Char) : escapeChar c ≠ [] := by
  rw [escapeChar]
  split_ifs <;> simp [hexEscape]

theorem length_le_flatMap_escape (ds : List Char) :
    ds.length ≤ (ds.flatMap escapeChar).length := by
  induction ds with
  | nil => simp
  | cons c ds ih =>
    have hpos : 0 < (escapeChar c).length :=
      List.length_pos.mpr (escapeChar_ne_nil c)
    simp only [List.flatMap_cons, List.length_cons, List.length_append]
    omega

/-- The string codec round-trip: `loadsStr` undoes `dumpStr` after its
opening quote. -/
theorem loadsStr_dump (s : String) (rest : List Char) :
    loadsStr (s.data.flatMap escapeChar ++ '"' :: rest) = some (s, rest) := by
  rw [loadsStr, loadsStrBody_run s.data _ [] rest
    (by
      have := length_le_flatMap_escape s.data
      simp only [List.length_append, List.length_cons]
      omega)]
  cases s
  rfl

/-! ### Round-trip: values -/

mutual
/-- Node count of a value, a lower bound on its serialized length, used as
the fuel bound for the parser. -/
def sizeV : JVal → Nat
  | .jstr _ => 1
  | .jnum _ => 1
  | .jarr a => sizeA a + 1
  | .jobj o => sizeO o + 1

/-- Node count of an array body. -/
def sizeA : JArr → Nat
  | .anil => 0
  | .acons v tl => sizeV v + sizeA tl + 1

/-- Node count of an object body. -/
def sizeO : JObj → Nat
  | .onil => 0
  | .ocons _ v tl => sizeV v + sizeO tl + 1
end

theorem loadsV_str (fuel : Nat) (s : String) (rest : List Char) :
    loadsV (fuel + 1) (dumpStr s ++ rest) = some (.jstr s, rest) := by
  rw [show dumpStr s ++ rest = '"' :: (s.data.flatMap escapeChar ++ '"' :: rest) from by
    simp [dumpStr]]
  rw [loadsV]
  rw [loadsStr_dump]

theorem loadsV_arrNil (fuel : Nat) (rest : List Char) :
    loadsV (fuel + 1) (dumpV (.jarr .anil) ++ rest) = some (.jarr .anil, rest) := rfl

theorem loadsV_objNil (fuel : Nat) (rest : List Char) :
    loadsV (fuel + 1) (dumpV (.jobj .onil) ++ rest) = some (.jobj .onil, rest) := rfl

theorem digitChar_ne_brack : ∀ d : Fin 10, digitChar d ≠ ']' ∧ digitChar d ≠ '}' := by
  decide

theorem dumpV_head (v : JVal) : ∃ c t, dumpV v = c :: t ∧ c ≠ ']' := by
  cases v with
  | jstr s => exact ⟨'"', _, rfl, by decide⟩
  | jarr a => cases a <;> exact ⟨'[', _, rfl, by decide⟩
  | jobj o => cases o <;> exact ⟨'{', _, rfl, by decide⟩
  | jnum x =>
    obtain ⟨ng, ip, fs⟩ := x
    cases ng with
    | true =>
      exact ⟨'-', natChars ip ++ (if fs.isEmpty then [] else '.' :: fs.map digitChar),
        by simp [dumpV, dumpNum], by decide⟩
    | false =>
      obtain ⟨d, t, hn⟩ := natChars_cons ip
      refine ⟨digitChar d, t ++ (if fs.isEmpty then [] else '.' :: fs.map digitChar),
        ?_, (digitChar_ne_brack d).1⟩
      simp [dumpV, dumpNum, hn]

theorem loadsV_arrCons (fuel : Nat) (v : JVal) (tl : JArr) (rest : List Char) :
    loadsV (fuel + 1) (dumpV (.jarr (.acons v tl)) ++ rest) =
      (match loadsV fuel (dumpV v ++ (dumpItems tl ++ ']' :: rest)) with
      | none => none
      | some (v1, r2) =>
        match loadsItems fuel r2 with
        | none => none
        | some (tl1, r3) => some (.jarr (.acons v1 tl1), r3)) := by
  obtain ⟨c, t, hd, hc⟩ := dumpV_head v
  rw [show dumpV (.jarr (.acons v tl)) ++ rest
      = '[' :: (c :: (t ++ (dumpItems tl ++ ']' :: rest))) from by simp [dumpV, hd]]
  rw [loadsV]
  · rw [hd]
    simp only [List.cons_append, List.append_assoc]
  · intro r heq
    injection heq with hh1 hh2
    exact absurd hh1 hc

theorem loadsV_objCons (fuel : Nat) (k : String) (v : JVal) (tl : JObj) (rest : List Char) :
    loadsV (fuel + 1) (dumpV (.jobj (.ocons k v tl)) ++ rest) =
      (match loadsStr (k.data.flatMap escapeChar ++
          '"' :: (':' :: ' ' :: (dumpV v ++ (dumpFields tl ++ '}' :: rest)))) with
      | none => none
      | some (k1, r2) =>
        match r2 with
        | ':' :: ' ' :: r3 =>
          match loadsV fuel r3 with
          | none => none
          | some (v1, r4) =>
            match loadsFields fuel r4 with
            | none => none
            | some (tl1, r5) => some (.jobj (.ocons k1 v1 tl1), r5)
        | _ => none) := by
  rw [show dumpV (.jobj (.ocons k v tl)) ++ rest
      = '{' :: '"' :: (k.data.flatMap escapeChar ++
          '"' :: (':' :: ' ' :: (dumpV v ++ (dumpFields tl ++ '}' :: rest)))) from by
    simp [dumpV, dumpStr]]
  rw [loadsV]

theorem loadsNum_head (x : JNum) :
    ∃ c t, dumpNum x = c :: t ∧ c ≠ '"' ∧ c ≠ '[' ∧ c ≠ '{' ∧ c ≠ ']' ∧ c ≠ '}' := by
  obtain ⟨ng, ip, fs⟩ := x
  cases ng with
  | true =>
    exact ⟨'-', natChars ip ++ (if fs.isEmpty then [] else '.' :: fs.map digitChar),
      by simp [dumpNum], by decide, by decide, by decide, by decide, by decide⟩
  | false =>
    obtain ⟨d, t, hn⟩ := natChars_cons ip
    refine ⟨digitChar d, t ++ (if fs.isEmpty then [] else '.' :: fs.map digitChar),
      ?_, (digitChar_ne d).2.2.1, (digitChar_ne d).2.2.2.1, (digitChar_ne d).2.2.2.2,
      (digitChar_ne_brack d).1, (digitChar_ne_brack d).2⟩
    simp [dumpNum, hn]

theorem loadsV_num (fuel : Nat) (x : JNum) (rest : List Char) (h : numStop rest) :
    loadsV (fuel + 1) (dumpV (.jnum x) ++ rest) = some (.jnum x, rest) := by
  obtain ⟨c, t, hd, hq, hbk, hbc, hbr, hbr2⟩ := loadsNum_head x
  have harg : dumpV (.jnum x) ++ rest = c :: (t ++ rest) := by
    simp [dumpV, hd]
  rw [harg, loadsV]
  · have hn := loadsNum_dumpNum x rest h
    rw [hd] at hn
    simp only [List.cons_append] at hn
    rw [hn]
  · intro r heq
    injection heq with hh1 hh2
    exact absurd hh1 hq
  · intro r heq
    injection heq with hh1 hh2
    exact absurd hh1 hbk
  · intro r heq
    injection heq with hh1 hh2
    exact absurd hh1 hbk
  · intro r heq
    injection heq with hh1 hh2
    exact absurd hh1 hbc
  · intro r heq
    injection heq with hh1 hh2
    exact absurd hh1 hbc

theorem loadsItems_cons (fuel : Nat) (v : JVal) (tl : JArr) (rest : List Char) :
    loadsItems (fuel + 1) (dumpItems (.acons v tl) ++ ']' :: rest) =
      (match loadsV fuel (dumpV v ++ (dumpItems tl ++ ']' :: rest)) with
      | none => none
      | some (v1, r2) =>
        match loadsItems fuel r2 with
        | none => none
        | some (tl1, r3) => some (.acons v1 tl1, r3)) := by
  rw [show dumpItems (.acons v tl) ++ ']' :: rest
      = ',' :: ' ' :: (dumpV v ++ (dumpItems tl ++ ']' :: rest)) from by simp [dumpItems]]
  rw [loadsItems]

theorem loadsFields_cons (fuel : Nat) (k : String) (v : JVal) (tl : JObj) (rest : List Char) :
    loadsFields (fuel + 1) (dumpFields (.ocons k v tl) ++ '}' :: rest) =
      (match loadsStr (k.data.flatMap escapeChar ++
          '"' :: (':' :: ' ' :: (dumpV v ++ (dumpFields tl ++ '}' :: rest)))) with
      | none => none
      | some (k1, r2) =>
        match r2 with
        | ':' :: ' ' :: r3 =>
          match loadsV fuel r3 with
          | none => none
          | some (v1, r4) =>
            match loadsFields fuel r4 with
            | none => none
            | some (tl1, r5) => some (.ocons k1 v1 tl1, r5)
        | _ => none) := by
  rw [show dumpFields (.ocons k v tl) ++ '}' :: rest
      = ',' :: ' ' :: '"' :: (k.data.flatMap escapeChar ++
          '"' :: (':' :: ' ' :: (dumpV v ++ (dumpFields tl ++ '}' :: rest)))) from by
    simp [dumpFields, dumpStr]]
  rw [loadsFields]

theorem numStop_items (tl : JArr) (rest : List Char) :
    numStop (dumpItems tl ++ ']' :: rest) := by
  cases tl with
  | anil => exact ⟨rfl, show (']' : Char) ≠ '.' from by decide⟩
  | acons v tl => exact ⟨rfl, show (',' : Char) ≠ '.' from by decide⟩

theorem numStop_fields (tl : JObj) (rest : List Char) :
    numStop (dumpFields tl ++ '}' :: rest) := by
  cases tl with
  | onil => exact ⟨rfl, show ('}' : Char) ≠ '.' from by decide⟩
  | ocons k v tl => exact ⟨rfl, show (',' : Char) ≠ '.' from by decide⟩

mutual
/-- The value codec round-trip, with enough fuel and a remainder that
cannot extend a number token. -/
theorem rtV : ∀ (fuel : Nat) (v : JVal) (rest : List Char),
    sizeV v < fuel → numStop rest →
    loadsV fuel (dumpV v ++ rest) = some (v, rest)
  | 0, _, _, hs, _ => absurd hs (Nat.not_lt_zero _)
  | fuel + 1, .jstr s, rest, _, _ => loadsV_str fuel s rest
  | fuel + 1, .jnum x, rest, _, hr => loadsV_num fuel x rest hr
  | fuel + 1, .jarr .anil, rest, _, _ => loadsV_arrNil fuel rest
  | fuel + 1, .jarr (.acons v tl), rest, hs, _ => by
    have hs2 : sizeV v < fuel ∧ sizeA tl < fuel := by
      simp only [sizeV, sizeA] at hs
      omega
    rw [loadsV_arrCons, rtV fuel v _ hs2.1 (numStop_items tl rest)]
    dsimp only
    rw [rtItems fuel tl rest hs2.2]
  | fuel + 1, .jobj .onil, rest, _, _ => loadsV_objNil fuel rest
  | fuel + 1, .jobj (.ocons k v tl), rest, hs, _ => by
    have hs2 : sizeV v < fuel ∧ sizeO tl < fuel := by
      simp only [sizeV, sizeO] at hs
      omega
    rw [loadsV_objCons, loadsStr_dump]
    show (match loadsV fuel (dumpV v ++ (dumpFields tl ++ '}' :: rest)) with
      | none => none
      | some (v1, r4) =>
        match loadsFields fuel r4 with
        | none => none
        | some (tl1, r5) => some (JVal.jobj (.ocons k v1 tl1), r5)) =
      some (.jobj (.ocons k v tl), rest)
    rw [rtV fuel v _ hs2.1 (numStop_fields tl rest)]
    dsimp only
    rw [rtFields fuel tl rest hs2.2]
termination_by fuel _ _ _ _ => fuel

/-- The array-body codec round-trip. -/
theorem rtItems : ∀ (fuel : Nat) (a : JArr) (rest : List Char),
    sizeA a < fuel →
    loadsItems fuel (dumpItems a ++ ']' :: rest) = some (a, rest)
  | 0, _, _, hs => absurd hs (Nat.not_lt_zero _)
  | fuel + 1, .anil, rest, _ => rfl
  | fuel + 1, .acons v tl, rest, hs => by
    have hs2 : sizeV v < fuel ∧ sizeA tl < fuel := by
      simp only [sizeA] at hs
      omega
    rw [loadsItems_cons, rtV fuel v _ hs2.1 (numStop_items tl rest)]
    dsimp only
    rw [rtItems fuel tl rest hs2.2]
termination_by fuel _ _ _ => fuel

/-- The object-body codec round-trip. -/
theorem rtFields : ∀ (fuel : Nat) (o : JObj) (rest : List Char),
    sizeO o < fuel →
    loadsFields fuel (dumpFields o ++ '}' :: rest) = some (o, rest)
  | 0, _, _, hs => absurd hs (Nat.not_lt_zero _)
  | fuel + 1, .onil, rest, _ => rfl
  | fuel + 1, .ocons k v tl, rest, hs => by
    have hs2 : sizeV v < fuel ∧ sizeO tl < fuel := by
      simp only [sizeO] at hs
      omega
    rw [loadsFields_cons, loadsStr_dump]
    show (match loadsV fuel (dumpV v ++ (dumpFields tl ++ '}' :: rest)) with
      | none => none
      | some (v1, r4) =>
        match loadsFields fuel r4 with
        | none => none
        | some (tl1, r5) => some (JObj.ocons k v1 tl1, r5)) =
      some (.ocons k v tl, rest)
    rw [rtV fuel v _ hs2.1 (numStop_fields tl rest)]
    dsimp only
    rw [rtFields fuel tl rest hs2.2]
termination_by fuel _ _ _ => fuel
end

mutual
/-- Serialized length dominates node count (so length-based fuel suffices). -/
theorem sizeV_le_dumpV : ∀ v : JVal, sizeV v ≤ (dumpV v).length
  | .jstr s => by simp [dumpV, dumpStr, sizeV]
  | .jnum x => by
    obtain ⟨c, t, hd, _⟩ := loadsNum_head x
    simp [dumpV, hd, sizeV]
  | .jarr .anil => by simp [dumpV, sizeV, sizeA]
  | .jarr (.acons v tl) => by
    have h1 := sizeV_le_dumpV v
    have h2 := sizeA_le_dumpItems tl
    simp only [dumpV, sizeV, sizeA, List.length_cons, List.length_append]
    omega
  | .jobj .onil => by simp [dumpV, sizeV, sizeO]
  | .jobj (.ocons k v tl) => by
    have h1 := sizeV_le_dumpV v
    have h2 := sizeO_le_dumpFields tl
    simp only [dumpV, sizeV, sizeO, dumpStr, List.length_cons, List.length_append]
    omega

/-- The array-body analogue of `sizeV_le_dumpV`. -/
theorem sizeA_le_dumpItems : ∀ a : JArr, sizeA a ≤ (dumpItems a).length
  | .anil => by simp [dumpItems, sizeA]
  | .acons v tl => by
    have h1 := sizeV_le_dumpV v
    have h2 := sizeA_le_dumpItems tl
    simp only [dumpItems, sizeA, List.length_cons, List.length_append]
    omega

/-- The object-body analogue of `sizeV_le_dumpV`. -/
theorem sizeO_le_dumpFields : ∀ o : JObj, sizeO o ≤ (dumpFields o).length
  | .onil => by simp [dumpFields, sizeO]
  | .ocons k v tl => by
    have h1 := sizeV_le_dumpV v
    have h2 := sizeO_le_dumpFields tl
    simp only [dumpFields, sizeO, dumpStr, List.length_cons, List.length_append]
    omega
end

/-- The codec round-trip for complete documents: parsing a serialized
value recovers it exactly. -/
theorem loads_dumps (j : JVal) : loads (dumps j) = some j := by
  have hfuel : sizeV j < (dumpV j).length + 1 :=
    Nat.lt_succ_of_le (sizeV_le_dumpV j)
  have h := rtV ((dumpV j).length + 1) j [] hfuel ⟨trivial, trivial⟩
  rw [List.append_nil] at h
  rw [loads, dumps, h]

/-! ### C8 -/

/-- C8: for every envelope a strategy produces, serializing it with
`dumps` (the `json.dumps` model) and parsing the text back with `loads`
yields a structurally identical value: every field and its order is
preserved, and numbers keep their int/float form (`JNum.fracDigits`
distinguishes `1` from `1.0`), so no type is coerced. -/
theorem c8_serialize_parse_round_trip (cfg : Config)
    (tsvc : List String → Except String (List SentimentDocItem))
    (isvc : List Nat → Except String AnalyzeResult)
    (text : String) (bs : List Nat) (j : JVal)
    (h : process_text cfg tsvc text = .ok j ∨ process_image cfg isvc bs = .ok j) :
    loads (dumps j) = some j :=
  loads_dumps j

/-- C8 witness: the Scenario A envelope survives the round trip. -/
theorem c8_witness :
    loads (dumps (.jobj (.ocons "documents"
      (.jarr (arrOfList [docJson "1" "positive"
        ⟨false, 0, [9, 5]⟩ ⟨false, 0, [0, 4]⟩ ⟨false, 0, [0, 1]⟩])) .onil))) =
      some (.jobj (.ocons "documents"
        (.jarr (arrOfList [docJson "1" "positive"
          ⟨false, 0, [9, 5]⟩ ⟨false, 0, [0, 4]⟩ ⟨false, 0, [0, 1]⟩])) .onil)) :=
  c8_serialize_parse_round_trip ⟨some "https://e", some "k"⟩
    (fun _ => .ok [.success "1" "positive"
      ⟨false, 0, [9, 5]⟩ ⟨false, 0, [0, 4]⟩ ⟨false, 0, [0, 1]⟩])
    (fun _ => .ok ⟨"", []⟩) "I love this product!" [0] _ (Or.inl rfl)
